import Mathlib

/-!
# Verification of the Tomasulo-Softcore simulator

Shallow embedding of the Tomasulo-style out-of-order core simulator
(`Tomasulo.py`, `src/ReservationStation.py`, `src/MemoryUnit.py`,
`src/ld_st_queue.py`) together with proofs about the embedded code.

Python dynamic values are embedded as the inductive `Cell`
(int / float / bool); floats are modelled as rationals, since the
simulator only performs exact `+`, `-`, `*` on them.  ROB tags, written
`"ROB<k>"` in the Python source, are embedded as the natural number `k`
(the string space `{"ROB<k>"}` is in bijection with ℕ, and the code only
ever compares such strings for equality).  Fields of the Python code that
hold "a tag or a value" are embedded as the sum type `TV`.

Components whose source files are not present in the repository snapshot
(ROB, RAT, ARF, InstructionQueue, BranchUnit, LdStQ, IntegerALU, FPALU)
are modelled from the specification; each such definition carries a
`Modelled from the spec:` doc comment.
-/

/-- A Python numeric value as used by the simulator: an `int`, a `float`
(embedded as ℚ — the simulator only performs exact arithmetic) or a
`bool` (branch outcomes). -/
inductive Cell where
  | VInt (i : ℤ)
  | VFloat (q : ℚ)
  | VBool (b : Bool)
deriving DecidableEq, Repr

namespace Cell

/-- Python `isinstance(value, int)`; note `bool` is a subclass of `int`
in Python, so booleans answer true. -/
def pyIsInt : Cell → Bool
  | VInt _ => true
  | VBool _ => true
  | VFloat _ => false

/-- Python `isinstance(value, float)`. -/
def pyIsFloat : Cell → Bool
  | VFloat _ => true
  | _ => false

/-- Python `isinstance(value, bool)`. -/
def isBool : Cell → Bool
  | VBool _ => true
  | _ => false

/-- The value viewed as a rational (Python numeric coercion). -/
def toRat : Cell → ℚ
  | VInt i => (i : ℚ)
  | VFloat q => q
  | VBool b => if b then 1 else 0

/-- Python `int(x)`: truncation toward zero. -/
def pyInt : Cell → ℤ
  | VInt i => i
  | VFloat q => Int.tdiv q.num (q.den : ℤ)
  | VBool b => if b then 1 else 0

/-- Python `float(x)`. -/
def pyFloat : Cell → Cell
  | VInt i => VFloat (i : ℚ)
  | VFloat q => VFloat q
  | VBool b => VFloat (if b then 1 else 0)

end Cell

/-- A field holding either a ROB tag (`"ROB<k>"` embedded as `k`) or a
resolved value — the simulator reuses single list slots for both. -/
inductive TV where
  | tag (k : ℕ)
  | val (c : Cell)
deriving DecidableEq, Repr

namespace TV

/-- Python `isinstance(field, int)` on a tag-or-value slot: true exactly
for a resolved integer value (a tag is a string, a float fails too). -/
def pyIsInt : TV → Bool
  | val c => c.pyIsInt
  | tag _ => false

/-- Whether the slot still holds an unresolved tag. -/
def isTag : TV → Bool
  | tag _ => true
  | val _ => false

end TV

/-! ## `src/MemoryUnit.py` (file shipped in the repository)

The class is embedded as written, including its quirks: the integer
bound check `addr > 256 or addr < 0` (which admits byte address 256),
the `init(addr/4)` misspelling of `int` in the "word taken by a float"
branch (a `NameError` at run time), and the complete absence of a bound
check in `mem_read`.  Python `raise`/uncaught errors are embedded as
`Except.error` carrying a `MemErr`; the `ValueError` diagnostic that
names the offending address is `MemErr.outrange addr`, a bare
`IndexError` from list indexing is `MemErr.indexError`, and the
`NameError` from the `init` typo is `MemErr.nameError`. -/

/-- Run-time errors of the embedded `MemoryUnit`. Only `outrange` is the
"diagnostic naming the offending address" demanded by the spec. -/
inductive MemErr where
  | outrange (addr : ℤ)
  | indexError
  | nameError
deriving DecidableEq, Repr

/-- Python list read `l[i]`: negative indices wrap once, anything else
out of range raises `IndexError`. -/
def pyGet {α : Type} (l : List α) (i : ℤ) : Except MemErr α :=
  if h : 0 ≤ i ∧ i.toNat < l.length then .ok (l.get ⟨i.toNat, h.2⟩)
  else if h2 : i < 0 ∧ 0 ≤ (l.length : ℤ) + i ∧ ((l.length : ℤ) + i).toNat < l.length then
    .ok (l.get ⟨((l.length : ℤ) + i).toNat, h2.2.2⟩)
  else .error .indexError

/-- Python list write `l[i] = v` (same index semantics as `pyGet`). -/
def pySet {α : Type} (l : List α) (i : ℤ) (v : α) : Except MemErr (List α) :=
  if 0 ≤ i ∧ i.toNat < l.length then .ok (l.set i.toNat v)
  else if i < 0 ∧ 0 ≤ (l.length : ℤ) + i ∧ ((l.length : ℤ) + i).toNat < l.length then
    .ok (l.set ((l.length : ℤ) + i).toNat v)
  else .error .indexError

/-- Python `int(addr/4)`: exact division then truncation toward zero. -/
def pyDiv4 (addr : ℤ) : ℤ := Int.tdiv addr 4

/-- `MemoryUnit.__init__`: 64 words of `0`, a parallel flag array, and
the (unused) `memory_max_length` field. -/
structure MemoryUnit where
  memory : List Cell
  flag : List ℤ
  memory_max_length : ℤ
deriving DecidableEq, Repr

namespace MemoryUnit

/-- `MemoryUnit()`: `memory = [0]*64`, `flag = [0]*64`,
`memory_max_length = 256`. -/
def init : MemoryUnit :=
  { memory := List.replicate 64 (Cell.VInt 0)
    flag := List.replicate 64 0
    memory_max_length := 256 }

/-- `MemoryUnit.mem_write(addr, value)` (lines 22–46 of the source).
The two `isinstance` blocks are sequential `if`s in the source; since a
value cannot be both an `int` and a `float`, they are embedded as a
disjoint case split.  The partial mutation performed before the
`NameError` in the flag branch is discarded: the raised error aborts the
simulation. -/
def mem_write (m : MemoryUnit) (addr : ℤ) (value : Cell) : Except MemErr MemoryUnit :=
  if value.pyIsInt then
    if addr > 256 ∨ addr < 0 then .error (.outrange addr)
    else do
      let f ← pyGet m.flag (pyDiv4 addr)
      if f ≠ 0 then
        -- `self.memory[init(addr/4) + tmp] = 0` : `init` is undefined
        .error .nameError
      else do
        let mem ← pySet m.memory (pyDiv4 addr) value
        .ok { m with memory := mem }
  else if value.pyIsFloat then
    if addr > 252 ∨ addr < 0 then .error (.outrange addr)
    else do
      let mem ← pySet m.memory (pyDiv4 addr) value
      let f1 ← pySet m.flag (pyDiv4 addr) 1
      -- the source then immediately overwrites the same flag with -1
      let f2 ← pySet f1 (pyDiv4 addr) (-1)
      .ok { m with memory := mem, flag := f2 }
  else .ok m

/-- `MemoryUnit.mem_read(addr)` (lines 48–49): a bare list read with no
bound check whatsoever. -/
def mem_read (m : MemoryUnit) (addr : ℤ) : Except MemErr Cell :=
  pyGet m.memory (pyDiv4 addr)

end MemoryUnit

/-! ## `src/ReservationStation.py` (file shipped in the repository)

Entries are six-element lists `[ID, op, Qi, Qj, Vi, Vj]`; tags and
values are kept in separate optional slots. -/

/-- Opcodes appearing in the simulator. -/
inductive Op where
  | ADD | ADDI | SUB | SUBI | ADDD | SUBD | MULTD | LD | SD | BEQ | BNE | NOP
deriving DecidableEq, Repr

/-- One entry of the shipped `ReservationStation`:
`[instructionID, op, Qi, Qj, Vi, Vj]`. -/
structure RSEntry6 where
  id : ℕ
  op : Op
  Qi : Option ℕ
  Qj : Option ℕ
  Vi : Option Cell
  Vj : Option Cell
deriving DecidableEq, Repr

/-- The shipped `ReservationStation` class: a bounded list of entries. -/
structure ReservationStation where
  size : ℕ
  q : List RSEntry6
deriving DecidableEq, Repr

namespace ReservationStation

/-- `ReservationStation.isFull`. -/
def isFull (rs : ReservationStation) : Bool := rs.q.length == rs.size

/-- `ReservationStation.add`. -/
def add (rs : ReservationStation) (instructionID : ℕ) (op : Op)
    (Qi Qj : Option ℕ) (Vi Vj : Option Cell) : ReservationStation :=
  { rs with q := rs.q ++ [⟨instructionID, op, Qi, Qj, Vi, Vj⟩] }

/-- `ReservationStation.remove(instructionID)`: pops the first entry
with a matching ID. -/
def remove (rs : ReservationStation) (instructionID : ℕ) : ReservationStation :=
  { rs with q := rs.q.eraseP (fun e => e.id == instructionID) }

/-- The per-entry effect of `ReservationStation.update(tag, value)`
(lines 79–85 of the source): each of the two source slots whose tag
matches has its tag set to `None` and its value filled. -/
def updateEntry (tag : ℕ) (value : Cell) (e : RSEntry6) : RSEntry6 :=
  let e := if e.Qi == some tag then { e with Qi := none, Vi := some value } else e
  if e.Qj == some tag then { e with Qj := none, Vj := some value } else e

/-- `ReservationStation.update(tag, value)` (lines 66–85). -/
def update (rs : ReservationStation) (tag : ℕ) (value : Cell) : ReservationStation :=
  { rs with q := rs.q.map (updateEntry tag value) }

/-- The documented convention: for each source, exactly one of
{tag, value} is set. -/
def srcOK (t : Option ℕ) (v : Option Cell) : Prop :=
  (t.isSome ∧ v = none) ∨ (t = none ∧ v.isSome)

instance (t : Option ℕ) (v : Option Cell) : Decidable (srcOK t v) := by
  unfold srcOK; infer_instance

/-- Both sources of an entry obey the convention. -/
def entryOK (e : RSEntry6) : Prop := srcOK e.Qi e.Vi ∧ srcOK e.Qj e.Vj

instance (e : RSEntry6) : Decidable (entryOK e) := by
  unfold entryOK; infer_instance

end ReservationStation

/-! ## The pipeline orchestrator (`Tomasulo.py`)

The sub-components imported by `Tomasulo.py` whose source files are not
in the repository snapshot (ROB, RAT, ARF, InstructionQueue, BranchUnit,
LdStQ, IntegerALU, FPAdder, FPMultiplier — only the shipped
`ReservationStation` predates the seven-field entries the orchestrator
builds) are modelled from the specification below; the stage functions
themselves are embedded line by line from `Tomasulo.py`. -/

/-- An architectural register name: `R0..R31` or `F0..F31`. -/
inductive Reg where
  | R (n : ℕ)
  | F (n : ℕ)
deriving DecidableEq, Repr

/-- An instruction operand field: a register name or an integer literal
(immediates, displacements and branch offsets). -/
inductive Operand where
  | reg (r : Reg)
  | imm (i : ℤ)
deriving DecidableEq, Repr

/-- A decoded instruction tuple `(op, f1, f2, f3)` as produced by the
parser: `f1` is the destination (or first branch source / store data
register), `f2` and `f3` the remaining fields. -/
structure Instr where
  op : Op
  f1 : Operand
  f2 : Operand
  f3 : Operand
deriving DecidableEq, Repr

/-- Association-list lookup (Python `dict`/keyed search). -/
def alookup {α β : Type} [DecidableEq α] : List (α × β) → α → Option β
  | [], _ => none
  | (k, v) :: t, a => if k = a then some v else alookup t a

/-- Association-list write: replaces in place, appends new keys at the
end (Python `dict` insertion order). -/
def aset {α β : Type} [DecidableEq α] : List (α × β) → α → β → List (α × β)
  | [], a, b => [(a, b)]
  | (k, v) :: t, a, b => if k = a then (a, b) :: t else (k, v) :: aset t a b

/-- Association-list in-place modification of an existing key. -/
def amap {α β : Type} [DecidableEq α] : List (α × β) → α → (β → β) → List (α × β)
  | [], _, _ => []
  | (k, v) :: t, a, f => if k = a then (k, f v) :: t else (k, v) :: amap t a f

/-- One row of the completion record `self.output`:
`[issue, execute, memory, writeback, commit]` cycles, `None` when the
stage has not been reached. -/
structure OutRec where
  isC : Option ℕ
  exC : Option ℕ
  meC : Option ℕ
  wbC : Option ℕ
  coC : Option ℕ
deriving DecidableEq, Repr

namespace OutRec

/-- Indexed read `output[ID][stage]`. -/
def get (r : OutRec) : ℕ → Option ℕ
  | 0 => r.isC
  | 1 => r.exC
  | 2 => r.meC
  | 3 => r.wbC
  | 4 => r.coC
  | _ => none

/-- Indexed write `output[ID][stage] = cycle`; the source only ever uses
stages 0–4. -/
def set (r : OutRec) (stage c : ℕ) : OutRec :=
  match stage with
  | 0 => { r with isC := some c }
  | 1 => { r with exC := some c }
  | 2 => { r with meC := some c }
  | 3 => { r with wbC := some c }
  | 4 => { r with coC := some c }
  | _ => r

/-- The fresh row `[cycle, None, None, None, None]` created by the first
`updateOutput` call for an instruction. -/
def fresh (c : ℕ) : OutRec := ⟨some c, none, none, none, none⟩

/-- The loop of `Tomasulo.isNew`: the most recently filled stage,
scanning slots 4 down to 0. -/
def mostRecent (r : OutRec) : Option ℕ :=
  r.coC <|> r.wbC <|> r.meC <|> r.exC <|> r.isC

end OutRec

/-- One seven-field reservation-station entry as built by
`Tomasulo.issueStage`:
`[ID, ROBId, op, q1, q2, v1, v2]` plus the executing flag maintained by
the (missing) current `ReservationStation` class. -/
structure RSEntry where
  id : ℕ
  rob : ℕ
  op : Op
  q1 : Option ℕ
  q2 : Option ℕ
  v1 : Option Cell
  v2 : Option Cell
  busy : Bool
deriving DecidableEq, Repr

/-- Modelled from the spec: the current `ReservationStation` class used
by the orchestrator (its file is missing from the snapshot; the shipped
one has six-field entries).  "Bounded FIFO.  Operations: `isFull`,
`add`, `remove(id)`, `update(tag, value)`, `markAsExecuting(id)`,
`purgeAfterMispredict(branchID)` (removes all entries with instruction
ID > branchID)." -/
structure RSQ where
  size : ℕ
  q : List RSEntry
deriving DecidableEq, Repr

namespace RSQ

def isFull (rs : RSQ) : Bool := rs.q.length == rs.size

def add (rs : RSQ) (id rob : ℕ) (op : Op)
    (q1 q2 : Option ℕ) (v1 v2 : Option Cell) : RSQ :=
  { rs with q := rs.q ++ [⟨id, rob, op, q1, q2, v1, v2, false⟩] }

def remove (rs : RSQ) (id : ℕ) : RSQ :=
  { rs with q := rs.q.eraseP (fun e => e.id == id) }

/-- `update(tag, value)`: sets any source tag matching `tag` to none
and fills its value (same protocol as the shipped class). -/
def update (rs : RSQ) (tag : ℕ) (value : Cell) : RSQ :=
  { rs with q := rs.q.map (fun e =>
      let e := if e.q1 == some tag then { e with q1 := none, v1 := some value } else e
      if e.q2 == some tag then { e with q2 := none, v2 := some value } else e) }

/-- `update` guarded on an optional tag (used where the orchestrator
feeds it the tag returned by `ROB.findAndUpdateEntry`). -/
def updateOpt (rs : RSQ) (tag : Option ℕ) (value : Cell) : RSQ :=
  match tag with
  | none => rs
  | some t => rs.update t value

def markAsExecuting (rs : RSQ) (id : ℕ) : RSQ :=
  { rs with q := rs.q.map (fun e => if e.id == id then { e with busy := true } else e) }

def purgeAfterMispredict (rs : RSQ) (branchID : ℕ) : RSQ :=
  { rs with q := rs.q.filter (fun e => decide (e.id ≤ branchID)) }

end RSQ

/-- Modelled from the spec: a functional unit (`IntegerALU`, `FPAdder`,
`FPMultiplier`; their files are missing from the snapshot).  "At most
one input may be accepted via `execute(id, op, a, b)` when `!busy`.
Internally each unit runs a countdown; when it reaches zero the result
is made visible via `isResultReady`/`getResult` = `(id, value)`.  For
the integer ALU, a branch comparison produces a boolean outcome exposed
through `isBranchOutcomePending`/`getResult`." -/
structure FU where
  latency : ℕ
  inflight : Option (ℕ × Op × Cell × Cell × ℕ)
  result : Option (ℕ × Cell)
deriving DecidableEq, Repr

/-- Modelled from the spec: operational semantics of the opcodes
(§4.4): Python-exact integer arithmetic, exact "double" arithmetic,
`BEQ`/`BNE` numeric comparison. -/
def opCompute (op : Op) (a b : Cell) : Cell :=
  match op with
  | .ADD | .ADDI => .VInt (a.pyInt + b.pyInt)
  | .SUB | .SUBI => .VInt (a.pyInt - b.pyInt)
  | .ADDD => .VFloat (a.toRat + b.toRat)
  | .SUBD => .VFloat (a.toRat - b.toRat)
  | .MULTD => .VFloat (a.toRat * b.toRat)
  | .BEQ => .VBool (a.toRat == b.toRat)
  | .BNE => .VBool (a.toRat != b.toRat)
  | _ => .VInt 0

namespace FU

def idle (lat : ℕ) : FU := ⟨lat, none, none⟩

/-- A unit is busy while computing or holding an uncollected result. -/
def busy (fu : FU) : Bool := fu.inflight.isSome || fu.result.isSome

def execute (fu : FU) (id : ℕ) (op : Op) (a b : Cell) : FU :=
  { fu with inflight := some (id, op, a, b, fu.latency) }

/-- The countdown tick: when the remaining time reaches zero the result
is computed and moved to the output register. -/
def advanceTime (fu : FU) : FU :=
  match fu.inflight with
  | none => fu
  | some (id, op, a, b, r) =>
    if r ≤ 1 then { fu with inflight := none, result := some (id, opCompute op a b) }
    else { fu with inflight := some (id, op, a, b, r - 1) }

/-- A non-branch result is ready for the CDB. -/
def isResultReady (fu : FU) : Bool :=
  match fu.result with
  | some (_, c) => !c.isBool
  | none => false

/-- A computed branch outcome is waiting for the Branch-check stage. -/
def isBranchOutcomePending (fu : FU) : Bool :=
  match fu.result with
  | some (_, c) => c.isBool
  | none => false

def getResultID (fu : FU) : ℕ := (fu.result.getD (0, .VInt 0)).1

/-- `getResult`: pops the `(id, value)` pair. -/
def getResult (fu : FU) : FU × (ℕ × Cell) :=
  ({ fu with result := none }, fu.result.getD (0, .VInt 0))

/-- "Drops any in-flight instruction with ID > branchID and frees the
unit" (any uncollected result of a squashed instruction is dropped with
it). -/
def purgeAfterMispredict (fu : FU) (branchID : ℕ) : FU :=
  { fu with
    inflight := fu.inflight.bind (fun p => if p.1 > branchID then none else some p)
    result := fu.result.bind (fun p => if p.1 > branchID then none else some p) }

end FU

/-- Modelled from the spec: one `LdStQ` entry (§3): instruction ID,
opcode, store-data slot (tag or value; for loads it initially holds the
instruction's own ROB tag, as passed by `issueStage`, and later the
loaded value), effective-address slot (base-register tag, then the base
value, then the byte address), displacement, and the three flags. -/
structure LSQEntry where
  id : ℕ
  op : Op
  vl : TV
  ad : TV
  disp : ℤ
  computed : Bool
  issued : Bool
  ready : Bool
deriving DecidableEq, Repr

/-- Modelled from the spec: the single memory port (§4.6): a small
state machine `{idle, serving(id, remaining)}`. -/
structure PortOp where
  isLoad : Bool
  id : ℕ
  addr : ℤ
  vl : Cell
  remaining : ℕ
deriving DecidableEq, Repr

/-- Modelled from the spec: the `LdStQ` class (file missing from the
snapshot).  Holds loads and stores in program order, the memory port,
an output buffer of retrieved load results, and the word-addressed
memory array it writes through (the orchestrator hands it the
`MemoryUnit`; the pipeline model keeps a plain 64-word array). -/
structure LSQ where
  size : ℕ
  latency : ℕ
  q : List LSQEntry
  port : Option PortOp
  resultBuf : List (ℕ × Cell)
  mem : List Cell
deriving DecidableEq, Repr

namespace LSQ

def isFull (l : LSQ) : Bool := l.q.length == l.size

/-- `LdStQ.add(id, op, value, address, displacement)` as called from
`issueStage` line 459. -/
def add (l : LSQ) (id : ℕ) (op : Op) (vl ad : TV) (disp : ℤ) : LSQ :=
  { l with q := l.q ++ [⟨id, op, vl, ad, disp, false, false, false⟩] }

/-- The memory port is serving an operation. -/
def busy (l : LSQ) : Bool := l.port.isSome

/-- Modelled from the spec: `LdStQ.executeStage(i)` — "compute
`byteAddr = 4*base + displacement` …, store it back into the address
slot, mark address computed". -/
def executeAt (l : LSQ) (id : ℕ) : LSQ :=
  { l with q := l.q.map (fun e =>
      if e.id == id then
        match e.ad with
        | .val c => { e with ad := .val (.VInt (4 * c.pyInt + e.disp)), computed := true }
        | .tag _ => e
      else e) }

/-- Modelled from the spec: "a store whose address is computed and whose
data has no outstanding tag" (used both for ROB store-readiness and for
forwarding eligibility). -/
def instructionReady (e : LSQEntry) : Bool :=
  e.computed && !e.vl.isTag

/-- An older store matching a load's computed byte address with resolved
data (forwarding source). -/
def matchStore (addr : TV) (e : LSQEntry) : Bool :=
  e.op == Op.SD && e.computed && !e.vl.isTag && e.ad == addr

/-- Modelled from the spec: `LdStQ.doForwards` — "scan the queue; for
any load L that has a computed address but no issued memory op, search
backward for the youngest older store S with matching computed address
and resolved data.  If found, deliver S's data into L's result, mark L
ready, return L's ID" (−1 when nothing forwards). -/
def doForwardsAux : List LSQEntry → List LSQEntry → Option (ℕ × Cell)
  | _, [] => none
  | older, e :: rest =>
    if e.op == Op.LD && e.computed && !e.issued && !e.ready then
      match (older.filter (matchStore e.ad)).getLast? with
      | some s =>
        match s.vl with
        | .val c => some (e.id, c)
        | .tag _ => none
      | none => doForwardsAux (older ++ [e]) rest
    else doForwardsAux (older ++ [e]) rest

def doForwards (l : LSQ) : ℤ × LSQ :=
  match doForwardsAux [] l.q with
  | some (lid, c) =>
    ((lid : ℤ),
     { l with
       q := l.q.map (fun e => if e.id == lid then { e with vl := .val c, ready := true } else e)
       resultBuf := l.resultBuf ++ [(lid, c)] })
  | none => (-1, l)

/-- Modelled from the spec: the alias hazard blocking a load: an older
store whose address is unknown, or to the same address with unresolved
data. -/
def hazard (older : List LSQEntry) (e : LSQEntry) : Bool :=
  older.any (fun s => s.op == Op.SD &&
    (!s.computed || (s.ad == e.ad && s.vl.isTag)))

/-- Modelled from the spec: `LdStQ.issueReadyLoad` — "pick the oldest
load with computed address, no prior alias hazard, and not yet issued;
dispatch to the memory port" (−1 when none, or when the port is busy). -/
def issueReadyLoadAux : List LSQEntry → List LSQEntry → Option (ℕ × ℤ)
  | _, [] => none
  | older, e :: rest =>
    if e.op == Op.LD && e.computed && !e.issued && !e.ready && !hazard older e then
      match e.ad with
      | .val c => some (e.id, c.pyInt)
      | .tag _ => none
    else issueReadyLoadAux (older ++ [e]) rest

def issueReadyLoad (l : LSQ) : ℤ × LSQ :=
  if l.port.isSome then (-1, l)
  else
    match issueReadyLoadAux [] l.q with
    | some (lid, a) =>
      ((lid : ℤ),
       { l with
         q := l.q.map (fun e => if e.id == lid then { e with issued := true } else e)
         port := some ⟨true, lid, a, .VInt 0, l.latency⟩ })
    | none => (-1, l)

/-- Modelled from the spec: `LdStQ.issueReadyStore` — "when the ROB's
commit target is a store at the LSQ head, launch the architectural
write to memory" (−1 when the head is not a launchable store or the
port is busy). -/
def issueReadyStore (l : LSQ) : ℤ × LSQ :=
  match l.q with
  | e :: rest =>
    if e.op == Op.SD && e.computed && !e.vl.isTag && !l.port.isSome then
      match e.ad, e.vl with
      | .val a, .val c => ((e.id : ℤ), { l with q := rest, port := some ⟨false, e.id, a.pyInt, c, l.latency⟩ })
      | _, _ => (-1, l)
    else (-1, l)
  | [] => (-1, l)

/-- Modelled from the spec: `LdStQ.checkMMU` — advances the port state
machine: a finished load deposits the memory word into the output
buffer and marks its entry ready; a finished store writes the word. -/
def checkMMU (l : LSQ) : LSQ :=
  match l.port with
  | some p =>
    if p.remaining = 0 then
      if p.isLoad then
        let w := l.mem.getD (Int.tdiv p.addr 4).toNat (.VInt 0)
        { l with
          port := none
          resultBuf := l.resultBuf ++ [(p.id, w)]
          q := l.q.map (fun e => if e.id == p.id then { e with vl := .val w, ready := true } else e) }
      else
        { l with port := none, mem := l.mem.set (Int.tdiv p.addr 4).toNat p.vl }
    else l
  | none => l

def advanceTime (l : LSQ) : LSQ :=
  { l with port := l.port.map (fun p => { p with remaining := p.remaining - 1 }) }

/-- A retrieved load result is waiting for the CDB. -/
def isResultReady (l : LSQ) : Bool := !l.resultBuf.isEmpty

/-- `getResult`: pops the oldest buffered load result and retires its
queue entry. -/
def getResult (l : LSQ) : LSQ × (ℕ × Cell) :=
  match l.resultBuf with
  | r :: rest => ({ l with resultBuf := rest, q := l.q.eraseP (fun e => e.id == r.1) }, r)
  | [] => (l, (0, .VInt 0))

/-- Modelled from the spec: CDB snoop — "fills store-data fields and
base-address fields whose tag matches". -/
def update (l : LSQ) (tag : ℕ) (value : Cell) : LSQ :=
  { l with q := l.q.map (fun e =>
      let e := if e.vl == TV.tag tag then { e with vl := .val value } else e
      if e.ad == TV.tag tag then { e with ad := .val value } else e) }

def updateOpt (l : LSQ) (tag : Option ℕ) (value : Cell) : LSQ :=
  match tag with
  | none => l
  | some t => l.update t value

/-- Modelled from the spec: "drops every entry with ID > branchID and
cancels any in-flight memory op belonging to a dropped entry". -/
def purgeAfterMispredict (l : LSQ) (branchID : ℕ) : LSQ :=
  { l with
    q := l.q.filter (fun e => decide (e.id ≤ branchID))
    resultBuf := l.resultBuf.filter (fun r => decide (r.1 ≤ branchID))
    port := l.port.bind (fun p => if p.id > branchID then none else some p) }

end LSQ

/-- Modelled from the spec: one ROB entry
`[Reference ID, destination, value, doneflag, ROB#]` (the field list in
the comment at `Tomasulo.py` line 740). -/
structure ROBEntry where
  id : ℕ
  dest : Operand
  value : Cell
  done : Bool
  slot : ℕ
deriving DecidableEq, Repr

/-- Modelled from the spec: the `ROB` class (file missing from the
snapshot): a circular queue of `robEntries` slots; `q` lists the live
entries head first, `nextSlot` is the next free slot index. -/
structure ROBmod where
  size : ℕ
  q : List ROBEntry
  nextSlot : ℕ
deriving DecidableEq, Repr

namespace ROBmod

def isFull (r : ROBmod) : Bool := r.q.length == r.size

/-- `add(id, dest) → slotIndex` (the slot index `k` is the tag
`"ROB<k>"`). -/
def add (r : ROBmod) (id : ℕ) (dest : Operand) : ROBmod × ℕ :=
  ({ r with q := r.q ++ [⟨id, dest, .VInt 0, false, r.nextSlot⟩]
            nextSlot := (r.nextSlot + 1) % r.size }, r.nextSlot)

/-- The head entry `self.ROB.q[self.ROB.head]`. -/
def headE (r : ROBmod) : Option ROBEntry := r.q.head?

/-- `canCommit() → id|none`: the head's ID when the head is done. -/
def canCommit (r : ROBmod) : Option ℕ :=
  match r.q.head? with
  | some e => if e.done then some e.id else none
  | none => none

/-- `commit() → entry`: pops the head. -/
def commit (r : ROBmod) : ROBmod × Option ROBEntry :=
  match r.q with
  | e :: rest => ({ r with q := rest }, some e)
  | [] => (r, none)

/-- `findAndUpdateEntry(id, value) → (slotIndex, tagName)`: marks the
entry done, writes the result, and returns its slot (the tag). -/
def findAndUpdateEntry (r : ROBmod) (id : ℕ) (value : Cell) : ROBmod × Option ℕ :=
  ({ r with q := r.q.map (fun e => if e.id == id then { e with value := value, done := true } else e) },
   (r.q.find? (fun e => e.id == id)).map (·.slot))

/-- Marks a store's separately-set done flag (the loop at
`Tomasulo.py` lines 504–509). -/
def markDone (r : ROBmod) (id : ℕ) : ROBmod :=
  { r with q := r.q.map (fun e => if e.id == id then { e with done := true } else e) }

/-- "Discards slots occupied by instructions with ID > branchID,
adjusting the tail." -/
def purgeAfterMispredict (r : ROBmod) (branchID : ℕ) : ROBmod :=
  { r with q := r.q.filter (fun e => decide (e.id ≤ branchID)) }

end ROBmod

/-- Modelled from the spec: the `RAT` (file missing from the snapshot):
"a mapping from architectural register name to either itself (value
lives in ARF) or a ROB tag".  `none` embeds "maps to itself"; only the
non-identity bindings are stored. -/
abbrev RAT : Type := List (Reg × Option ℕ)

namespace RATm

/-- `RAT.get(x)`; the Python code compares the result with the queried
name, so "maps to itself" is the `none` case.  A literal operand is its
own value (`RAT.get` of a non-register returns the key). -/
def get (rat : RAT) (o : Operand) : Option ℕ :=
  match o with
  | .imm _ => none
  | .reg r => (alookup rat r).getD none

/-- `RAT.set(x, tag)`; `set x none` restores the identity mapping
(`RAT.set(x, x)`). -/
def set (rat : RAT) (o : Operand) (t : Option ℕ) : RAT :=
  match o with
  | .imm _ => rat
  | .reg r => aset rat r t

end RATm

/-- Modelled from the spec: the `ARF` (file missing from the snapshot):
a flat register file; `R*` default to integer 0, `F*` to double 0.  A
literal operand reads as its own integer value. -/
abbrev ARF : Type := List (Reg × Cell)

namespace ARFm

def get (arf : ARF) (o : Operand) : Cell :=
  match o with
  | .imm i => .VInt i
  | .reg r =>
    (alookup arf r).getD (match r with | .R _ => .VInt 0 | .F _ => .VFloat 0)

def set (arf : ARF) (o : Operand) (v : Cell) : ARF :=
  match o with
  | .imm _ => arf
  | .reg r => aset arf r v

end ARFm

/-- Modelled from the spec: the `InstructionQueue` (file missing from
the snapshot): "ordered sequence of decoded instructions with a PC
pointer; supports `peek(offset)`, `fetch(offset)` (which also advances
PC by `1 + offset`), `empty(offset)`, and `setPC(new_pc)`".  Each
element is the pair `(instruction ID, tuple)`. -/
structure IQ where
  insts : List (ℕ × Instr)
  next : ℤ
deriving DecidableEq, Repr

namespace IQ

def getAt (iq : IQ) (n : ℤ) : Option (ℕ × Instr) :=
  if h : 0 ≤ n ∧ n.toNat < iq.insts.length then some (iq.insts.get ⟨n.toNat, h.2⟩)
  else none

def empty (iq : IQ) (offset : ℤ) : Bool := (iq.getAt (iq.next + offset)).isNone

def peek (iq : IQ) (offset : ℤ) : Option (ℕ × Instr) := iq.getAt (iq.next + offset)

/-- `fetch(offset)`: returns the instruction at `PC + offset` and sets
`PC := PC + offset + 1`. -/
def fetch (iq : IQ) (offset : ℤ) : IQ × Option (ℕ × Instr) :=
  ({ iq with next := iq.next + offset + 1 }, iq.getAt (iq.next + offset))

def setPC (iq : IQ) (pc : ℤ) : IQ := { iq with next := pc }

end IQ

/-- Modelled from the spec: the `BranchUnit` (file missing from the
snapshot): per-branch-ID `{ratCheckpoint, mispredictTarget,
prediction}`; the 1-bit predictor is initialised not-taken. -/
structure BranchUnit where
  preds : List (ℕ × Bool)
  targets : List (ℕ × ℤ)
  rats : List (ℕ × RAT)
deriving Repr

namespace BranchUnit

def predict (b : BranchUnit) (bid : ℕ) : Bool := (alookup b.preds bid).getD false

def update (b : BranchUnit) (bid : ℕ) (outcome : Bool) : BranchUnit :=
  { b with preds := aset b.preds bid outcome }

def saveRAT (b : BranchUnit) (bid : ℕ) (snapshot : RAT) : BranchUnit :=
  { b with rats := aset b.rats bid snapshot }

def setMispredictTarget (b : BranchUnit) (bid : ℕ) (pc : ℤ) : BranchUnit :=
  { b with targets := aset b.targets bid pc }

def getMispredictTarget (b : BranchUnit) (bid : ℕ) : ℤ := (alookup b.targets bid).getD 0

/-- `rollBack(bid) → snapshot`. -/
def rollBack (b : BranchUnit) (bid : ℕ) : RAT := (alookup b.rats bid).getD []

end BranchUnit

/-- The whole simulator state held by the `Tomasulo` object. -/
structure Core where
  iq : IQ
  lsq : LSQ
  rob : ROBmod
  arf : ARF
  rat : RAT
  rsALUI : RSQ
  rsALUFP : RSQ
  rsMULTFP : RSQ
  aluis : List FU
  alufps : List FU
  multfps : List FU
  branch : BranchUnit
  cycle : ℕ
  fetchOffset : ℤ
  done : Bool
  saveRAT : Bool
  ratBID : ℕ
  output : List (ℕ × OutRec)
deriving Repr

namespace Core

/-- `Tomasulo.updateOutput(ID, stage)` (lines 175–189): the first call
for an ID creates `[cycle, None, None, None, None]` — ignoring `stage` —
and only subsequent calls write the requested slot. -/
def updateOutput (s : Core) (id stage : ℕ) : Core :=
  match alookup s.output id with
  | none => { s with output := s.output ++ [(id, OutRec.fresh s.cycle)] }
  | some _ => { s with output := amap s.output id (fun r => r.set stage s.cycle) }

/-- `Tomasulo.isNew(ID)` (lines 260–277): the instruction reached its
most recent recorded stage in the current cycle. -/
def isNew (s : Core) (id : ℕ) : Bool :=
  ((alookup s.output id).getD ⟨none, none, none, none, none⟩).mostRecent == some s.cycle

/-- `Tomasulo.updateExitConditions` (lines 280–288): done once nothing
is left to fetch and no completion-record entry lacks a commit cycle. -/
def updateExitConditions (s : Core) : Core :=
  let nothingToFetch := s.iq.empty s.fetchOffset
  let stillExecuting := s.output.countP (fun p => (p.2.get 4).isNone)
  if nothingToFetch && stillExecuting == 0 then { s with done := true } else s

end Core

/-- The value of a literal operand (`int(...)` conversions of the tuple
fields for displacements and branch offsets). -/
def Operand.toInt : Operand → ℤ
  | .imm i => i
  | .reg _ => 0

/-- Operand capture at Issue (`Tomasulo.py` lines 369–382 / 427–435):
if the RAT maps the register to itself, read the ARF into the value
slot, else store the ROB tag in the tag slot. -/
def capture (rat : RAT) (arf : ARF) (o : Operand) : Option ℕ × Option Cell :=
  match RATm.get rat o with
  | none => (none, some (ARFm.get arf o))
  | some k => (some k, none)

/-- The same-cycle ROB-head back-fill for arithmetic and branch sources
(`Tomasulo.py` lines 384–391 and 436–444): if the ROB head has
completed and its tag `ROB<head>` matches a captured tag, the tag is
cleared and the head's value is copied verbatim. -/
def arithBackfill (rob : ROBmod) (q1 q2 : Option ℕ) (v1 v2 : Option Cell) :
    Option ℕ × Option ℕ × Option Cell × Option Cell :=
  match rob.headE with
  | some h =>
    if h.done then
      let p1 := if q1 == some h.slot then ((none : Option ℕ), some h.value) else (q1, v1)
      let p2 := if q2 == some h.slot then ((none : Option ℕ), some h.value) else (q2, v2)
      (p1.1, p2.1, p1.2, p2.2)
    else (q1, q2, v1, v2)
  | none => (q1, q2, v1, v2)

/-- The same-cycle ROB-head back-fill for `LD`/`SD` at Issue
(`Tomasulo.py` lines 409–415): a matching store-data tag receives
`float(value)`, while a matching base-address tag receives
`4 * int(value)` — not the value itself. -/
def memBackfill (name : Op) (rob : ROBmod) (dataTV adTV : TV) : TV × TV :=
  match rob.headE with
  | some h =>
    if h.done then
      let dataTV := if name == Op.SD && dataTV == TV.tag h.slot
                    then TV.val h.value.pyFloat else dataTV
      let adTV := if adTV == TV.tag h.slot
                  then TV.val (.VInt (4 * h.value.pyInt)) else adTV
      (dataTV, adTV)
    else (dataTV, adTV)
  | none => (dataTV, adTV)

namespace Core

/-- `Tomasulo.issueStage` (lines 291–465). -/
def issueStage (s : Core) : Core :=
  if s.iq.empty s.fetchOffset then s
  else if s.rob.isFull then s
  else
    match s.iq.peek s.fetchOffset with
    | none => s
    | some ni =>
      let nextName := ni.2.op
      let structFull :=
        match nextName with
        | .LD | .SD => s.lsq.isFull
        | .ADDD | .SUBD => s.rsALUFP.isFull
        | .MULTD => s.rsMULTFP.isFull
        | _ => s.rsALUI.isFull
      if structFull then s
      else
        -- fetch, reset/advance the fetch offset, branch bookkeeping
        let (iq1, _) := s.iq.fetch s.fetchOffset
        let s := { s with iq := iq1 }
        let s :=
          if nextName == Op.BEQ || nextName == Op.BNE then
            let s := { s with saveRAT := true, ratBID := ni.1 }
            if s.branch.predict ni.1 then
              { s with fetchOffset := ni.2.f3.toInt
                       branch := s.branch.setMispredictTarget ni.1 s.iq.next }
            else
              { s with fetchOffset := 0
                       branch := s.branch.setMispredictTarget ni.1 (s.iq.next + ni.2.f3.toInt) }
          else { s with fetchOffset := 0 }
        -- allocate the ROB slot
        let (rob1, robId) := s.rob.add ni.1 ni.2.f1
        let s := { s with rob := rob1 }
        -- operand capture, per instruction class
        if nextName == Op.BEQ || nextName == Op.BNE then
          let (q1, v1) := capture s.rat s.arf ni.2.f1
          let (q2, v2) := capture s.rat s.arf ni.2.f2
          let (q1, q2, v1, v2) := arithBackfill s.rob q1 q2 v1 v2
          let s := { s with rsALUI := s.rsALUI.add ni.1 robId nextName q1 q2 v1 v2 }
          s.updateOutput ni.1 0
        else if nextName == Op.LD || nextName == Op.SD then
          let adTV :=
            match RATm.get s.rat ni.2.f3 with
            | none => TV.val (.VInt (ARFm.get s.arf ni.2.f3).pyInt)
            | some k => TV.tag k
          let disp := ni.2.f2.toInt
          let dataTV :=
            if nextName == Op.SD then
              match RATm.get s.rat ni.2.f1 with
              | none => TV.val (ARFm.get s.arf ni.2.f1).pyFloat
              | some k => TV.tag k
            else TV.tag robId    -- for LD, entry[1] still holds the ROB tag
          let (dataTV, adTV) := memBackfill nextName s.rob dataTV adTV
          -- LD renames its destination; SD does not
          let s := if nextName == Op.LD then { s with rat := RATm.set s.rat ni.2.f1 (some robId) } else s
          let s := { s with lsq := s.lsq.add ni.1 nextName dataTV adTV disp }
          s.updateOutput ni.1 0
        else
          let (q1, v1) := capture s.rat s.arf ni.2.f2
          let (q2, v2) := capture s.rat s.arf ni.2.f3
          let (q1, q2, v1, v2) := arithBackfill s.rob q1 q2 v1 v2
          let s := { s with rat := RATm.set s.rat ni.2.f1 (some robId) }
          let s :=
            if nextName == Op.ADDD || nextName == Op.SUBD then
              { s with rsALUFP := s.rsALUFP.add ni.1 robId nextName q1 q2 v1 v2 }
            else if nextName == Op.MULTD then
              { s with rsMULTFP := s.rsMULTFP.add ni.1 robId nextName q1 q2 v1 v2 }
            else
              { s with rsALUI := s.rsALUI.add ni.1 robId nextName q1 q2 v1 v2 }
          s.updateOutput ni.1 0

end Core

/-- The dispatch loops of `Tomasulo.executeStage` (lines 514–553): walk
the units in order, feeding each idle unit the next ready entry; the
integer units receive `int(...)`-cast operands.  Returns the updated
units and the dispatched instruction IDs in order. -/
def dispatchFUs : List FU → List RSEntry → Bool → List FU × List ℕ
  | [], _, _ => ([], [])
  | fus, [], _ => (fus, [])
  | fu :: rest, r :: rs, isInt =>
    if fu.busy then
      let (fus1, ids) := dispatchFUs rest (r :: rs) isInt
      (fu :: fus1, ids)
    else
      let a := if isInt then Cell.VInt (r.v1.getD (.VInt 0)).pyInt else r.v1.getD (.VInt 0)
      let b := if isInt then Cell.VInt (r.v2.getD (.VInt 0)).pyInt else r.v2.getD (.VInt 0)
      let (fus1, ids) := dispatchFUs rest rs isInt
      (fu.execute r.id r.op a b :: fus1, r.id :: ids)

/-- The store-readiness pass of `Tomasulo.executeStage` (lines
504–509): every ROB entry of a store whose address is computed and
whose data is resolved is marked done. -/
def storeReadyMarks (lsq : LSQ) (rob : ROBmod) : ROBmod :=
  { rob with q := rob.q.map (fun rb =>
      if !rb.done && lsq.q.any (fun e =>
          e.op == Op.SD && LSQ.instructionReady e && e.id == rb.id)
      then { rb with done := true } else rb) }

namespace Core

/-- `Tomasulo.executeStage` (lines 468–559). -/
def executeStage (s : Core) : Core :=
  let readyP := fun (x : RSEntry) =>
    x.v1.isSome && x.v2.isSome && !x.busy && !s.isNew x.id
  let readyA := s.rsALUI.q.filter readyP
  let readyF := s.rsALUFP.q.filter readyP
  let readyM := s.rsMULTFP.q.filter readyP
  -- LSQ address computation (lines 489–500): one per cycle, oldest
  -- eligible entry, skipped entirely while the memory port is busy
  let s :=
    if !s.lsq.busy then
      match s.lsq.q.find? (fun e => !s.isNew e.id && e.ad.pyIsInt && !e.computed) with
      | some e =>
        let s := { s with lsq := s.lsq.executeAt e.id }
        s.updateOutput e.id 1
      | none => s
    else s
  -- store readiness (lines 504–509)
  let s := { s with rob := storeReadyMarks s.lsq s.rob }
  -- dispatch on the three unit classes (lines 514–553)
  let (aluis1, idsA) := dispatchFUs s.aluis readyA true
  let s := idsA.foldl (fun t i => t.updateOutput i 1) { s with aluis := aluis1 }
  let (alufps1, idsF) := dispatchFUs s.alufps readyF false
  let s := idsF.foldl (fun t i => t.updateOutput i 1) { s with alufps := alufps1 }
  let (multfps1, idsM) := dispatchFUs s.multfps readyM false
  let s := idsM.foldl (fun t i => t.updateOutput i 1) { s with multfps := multfps1 }
  -- markAsExecuting on every RS, blindly, for each dispatched ID
  let allIds := idsA ++ idsF ++ idsM
  { s with
    rsALUI := allIds.foldl RSQ.markAsExecuting s.rsALUI
    rsALUFP := allIds.foldl RSQ.markAsExecuting s.rsALUFP
    rsMULTFP := allIds.foldl RSQ.markAsExecuting s.rsMULTFP }

/-- The misprediction recovery block of `Tomasulo.checkBranchStage`
(lines 576–625): install the checkpoint RAT, purge every structure of
entries younger than the branch, redirect the PC, flip the stored
prediction, and delete the squashed completion-record rows. -/
def mispredictRecover (s : Core) (BID : ℕ) (prediction : Bool) : Core :=
  { s with
    rat := s.branch.rollBack BID
    rsALUI := s.rsALUI.purgeAfterMispredict BID
    rsALUFP := s.rsALUFP.purgeAfterMispredict BID
    rsMULTFP := s.rsMULTFP.purgeAfterMispredict BID
    aluis := s.aluis.map (FU.purgeAfterMispredict · BID)
    alufps := s.alufps.map (FU.purgeAfterMispredict · BID)
    multfps := s.multfps.map (FU.purgeAfterMispredict · BID)
    lsq := s.lsq.purgeAfterMispredict BID
    rob := s.rob.purgeAfterMispredict BID
    iq := s.iq.setPC (s.branch.getMispredictTarget BID)
    fetchOffset := 0
    branch := s.branch.update BID (!prediction)
    output := s.output.filter (fun p => !(decide (p.1 > BID))) }

/-- The body of the `for FU in self.ALUIs` loop of
`Tomasulo.checkBranchStage` (lines 567–631) for the unit at index `i`. -/
def checkBranchOne (s : Core) (i : ℕ) : Core :=
  match s.aluis.get? i with
  | none => s
  | some fu =>
    if fu.isBranchOutcomePending then
      let (fu1, r) := fu.getResult
      let bid := r.1
      let outcome := match r.2 with | .VBool b => b | _ => false
      let s := { s with aluis := s.aluis.set i fu1 }
      let prediction := s.branch.predict bid
      let s := if outcome != prediction then s.mispredictRecover bid prediction else s
      let (rob1, _) := s.rob.findAndUpdateEntry bid (.VBool outcome)
      { s with rob := rob1, rsALUI := s.rsALUI.remove bid }
    else s

/-- `Tomasulo.checkBranchStage` (lines 562–631). -/
def checkBranchStage (s : Core) : Core :=
  (List.range s.aluis.length).foldl checkBranchOne s

end Core

/-- The two possible memory-port actions of the Memory stage. -/
inductive MemAct where
  | forward (id : ℕ)
  | loadIssue (id : ℕ)
deriving DecidableEq, Repr

namespace Core

/-- `Tomasulo.memoryStage` (lines 634–649), instrumented with the list
of actions it performed: forwarding is attempted first and a ready load
is launched only when forwarding returned a negative ID. -/
def memoryStageL (s : Core) : Core × List MemAct :=
  let (ret, l1) := s.lsq.doForwards
  if ret ≥ 0 then
    (({ s with lsq := l1 } : Core).updateOutput ret.toNat 2, [.forward ret.toNat])
  else
    let (ret2, l2) := l1.issueReadyLoad
    if ret2 ≥ 0 then
      (({ s with lsq := l2 } : Core).updateOutput ret2.toNat 2, [.loadIssue ret2.toNat])
    else ({ s with lsq := l2 }, [])

/-- `Tomasulo.memoryStage` proper. -/
def memoryStage (s : Core) : Core := (s.memoryStageL).1

end Core

/-- A reference to the unit elected for writeback. -/
inductive WinRef where
  | alui (i : ℕ)
  | alufp (i : ℕ)
  | multfp (i : ℕ)
  | ldstq
deriving DecidableEq, Repr

/-- One scan loop of `Tomasulo.writebackStage` (lines 666–671 and its
two copies): walk the units of a class, keeping the unit with the
smallest ready result ID seen so far (strictly smaller than the running
bound, which starts at `2**30`). -/
def wbScan (cls : ℕ → WinRef) : List FU → ℕ → Option WinRef × ℕ → Option WinRef × ℕ
  | [], _, acc => acc
  | fu :: rest, i, (w, old) =>
    if fu.isResultReady && decide (fu.getResultID < old) then
      wbScan cls rest (i + 1) (some (cls i), fu.getResultID)
    else wbScan cls rest (i + 1) (w, old)

/-- The CDB election of `Tomasulo.writebackStage` (lines 662–692): the
integer-ALU scan runs first; the FP-adder and FP-multiplier scans run
only when no winner has been found yet; the load port is taken last,
only when no functional unit was elected. -/
def writebackSelect (aluis alufps multfps : List FU) (lsq : LSQ) : Option WinRef :=
  let p := wbScan WinRef.alui aluis 0 (none, 2 ^ 30)
  let p := if p.1.isNone then wbScan WinRef.alufp alufps 0 p else p
  let p := if p.1.isNone then wbScan WinRef.multfp multfps 0 p else p
  match p.1 with
  | some r => some r
  | none => if lsq.isResultReady then some WinRef.ldstq else none

namespace Core

/-- `winningFU.getResult()` for the elected unit. -/
def getResultFrom (s : Core) : WinRef → Core × (ℕ × Cell)
  | .alui i =>
    match s.aluis.get? i with
    | some fu => let (fu1, r) := fu.getResult; ({ s with aluis := s.aluis.set i fu1 }, r)
    | none => (s, (0, .VInt 0))
  | .alufp i =>
    match s.alufps.get? i with
    | some fu => let (fu1, r) := fu.getResult; ({ s with alufps := s.alufps.set i fu1 }, r)
    | none => (s, (0, .VInt 0))
  | .multfp i =>
    match s.multfps.get? i with
    | some fu => let (fu1, r) := fu.getResult; ({ s with multfps := s.multfps.set i fu1 }, r)
    | none => (s, (0, .VInt 0))
  | .ldstq =>
    let (l1, r) := s.lsq.getResult
    ({ s with lsq := l1 }, r)

/-- `Tomasulo.writebackStage` (lines 652–718). -/
def writebackStage (s : Core) : Core :=
  let s := { s with lsq := s.lsq.checkMMU }
  match writebackSelect s.aluis s.alufps s.multfps s.lsq with
  | none => s
  | some ref =>
    let (s, result) := s.getResultFrom ref
    let (rob1, name) := s.rob.findAndUpdateEntry result.1 result.2
    let s := { s with rob := rob1 }
    let s := { s with
      rsALUI := s.rsALUI.updateOpt name result.2
      rsALUFP := s.rsALUFP.updateOpt name result.2
      rsMULTFP := s.rsMULTFP.updateOpt name result.2
      lsq := s.lsq.updateOpt name result.2 }
    let s := { s with
      rsALUI := s.rsALUI.remove result.1
      rsALUFP := s.rsALUFP.remove result.1
      rsMULTFP := s.rsMULTFP.remove result.1 }
    s.updateOutput result.1 3

/-- The commit-time re-broadcast (`Tomasulo.py` lines 742–747 and
771–776): note the source builds the tag from the head's *instruction
ID* (`"ROB" + str(self.ROB.q[self.ROB.head][0])`), not its slot. -/
def broadcast (s : Core) (name : ℕ) (rv : Cell) : Core :=
  { s with
    rsALUI := s.rsALUI.update name rv
    rsALUFP := s.rsALUFP.update name rv
    rsMULTFP := s.rsMULTFP.update name rv
    lsq := s.lsq.update name rv }

/-- The RAT clearing at commit (`Tomasulo.py` lines 754–759 and
783–794): reset the mapping only if it still points at this ROB slot. -/
def ratClear (s : Core) (res : Option ROBEntry) : Core :=
  match res with
  | some r =>
    if RATm.get s.rat r.dest == some r.slot
    then { s with rat := RATm.set s.rat r.dest none } else s
  | none => s

/-- `Tomasulo.commitStage` (lines 721–804).  The store path launches
the architectural write and never touches the ARF; the non-store path
writes the ARF only when the committed value is not a boolean branch
outcome. -/
def commitStage (s : Core) : Core :=
  match s.rob.canCommit with
  | none => s
  | some resultID =>
    if s.isNew resultID then s
    else
      let found := s.lsq.q.any (fun e => e.id == resultID && e.op == Op.SD)
      if found then
        let (ss, lsq1) := s.lsq.issueReadyStore
        let s := { s with lsq := lsq1 }
        if ss ≥ 0 then
          match s.rob.headE with
          | some h =>
            let s := s.broadcast h.id h.value
            let (rob1, res) := s.rob.commit
            let s := { s with rob := rob1 }
            let s := s.ratClear res
            s.updateOutput resultID 4
          | none => s
        else s
      else
        match s.rob.headE with
        | some h =>
          let s := s.broadcast h.id h.value
          let (rob1, res) := s.rob.commit
          let s := { s with rob := rob1 }
          let s := s.ratClear res
          let s :=
            match res with
            | some r =>
              if !r.value.isBool then { s with arf := ARFm.set s.arf r.dest r.value } else s
            | none => s
          s.updateOutput resultID 4
        | none => s

/-- `Tomasulo.advanceTime` (lines 160–172). -/
def advanceTime (s : Core) : Core :=
  { s with
    cycle := s.cycle + 1
    aluis := s.aluis.map FU.advanceTime
    alufps := s.alufps.map FU.advanceTime
    multfps := s.multfps.map FU.advanceTime
    lsq := s.lsq.advanceTime }

/-- One iteration of the `while not self.done` loop of
`Tomasulo.runSimulation` (lines 109–153). -/
def cycleStep (s : Core) : Core :=
  let s := { s with lsq := s.lsq.checkMMU }
  let s := s.issueStage
  let s := s.executeStage
  let s := s.checkBranchStage
  let s := s.memoryStage
  let s := s.writebackStage
  let s := s.commitStage
  let s := s.advanceTime
  let s := s.updateExitConditions
  if s.saveRAT then { s with branch := s.branch.saveRAT s.ratBID s.rat, saveRAT := false }
  else s

/-- `Tomasulo.runSimulation`, fuel-bounded: keep stepping while `done`
is unset. -/
def run : ℕ → Core → Core
  | 0, s => s
  | n + 1, s => if s.done then s else run n s.cycleStep

end Core

/-! ## Helper lemmas on association lists -/

theorem alookup_append_of_none {α β : Type} [DecidableEq α]
    (l : List (α × β)) (a : α) (b : β) (h : alookup l a = none) :
    alookup (l ++ [(a, b)]) a = some b := by
  induction l with
  | nil => simp [alookup]
  | cons hd t ih =>
    rw [alookup] at h
    by_cases hk : hd.1 = a
    · simp [hk] at h
    · simp only [List.cons_append, alookup, hk, if_neg hk] at h ⊢
      exact ih h

theorem alookup_amap {α β : Type} [DecidableEq α]
    (l : List (α × β)) (a : α) (f : β → β) :
    alookup (amap l a f) a = (alookup l a).map f := by
  induction l with
  | nil => simp [alookup, amap]
  | cons hd t ih =>
    by_cases hk : hd.1 = a
    · cases hd with
      | mk k v => simp only at hk; subst hk; simp [alookup, amap]
    · cases hd with
      | mk k v =>
        simp only at hk
        simp only [alookup, amap, if_neg hk]
        exact ih

/-! ## Claim theorems -/

/-- A small concrete simulator state used by the witnesses: two memory
instructions in flight, one idle unit per class. -/
def witCore : Core :=
  { iq := { insts := [
      (0, ⟨Op.SD, .reg (.F 0), .imm 0, .reg (.R 1)⟩),
      (1, ⟨Op.LD, .reg (.F 2), .imm 0, .reg (.R 1)⟩)], next := 0 }
    lsq := { size := 4, latency := 2, q := [], port := none, resultBuf := []
             mem := List.replicate 64 (Cell.VInt 0) }
    rob := { size := 8, q := [], nextSlot := 0 }
    arf := [(Reg.R 1, Cell.VInt 4), (Reg.F 0, Cell.VFloat 3)]
    rat := []
    rsALUI := { size := 2, q := [] }
    rsALUFP := { size := 2, q := [] }
    rsMULTFP := { size := 2, q := [] }
    aluis := [FU.idle 1], alufps := [FU.idle 1], multfps := [FU.idle 1]
    branch := { preds := [], targets := [], rats := [] }
    cycle := 0, fetchOffset := 0, done := false
    saveRAT := false, ratBID := 0, output := [] }

/-- **C10.** For every instruction ID not yet present in the completion
record, the first call to `updateOutput(ID, stage)` records the current
cycle in the Issue slot regardless of the `stage` argument, leaving the
other four slots empty; only subsequent calls write the given stage's
slot. -/
theorem updateOutput_first_call (s : Core) (id stage : ℕ) :
    (alookup s.output id = none →
      alookup (s.updateOutput id stage).output id =
        some ⟨some s.cycle, none, none, none, none⟩) ∧
    (∀ r, alookup s.output id = some r →
      alookup (s.updateOutput id stage).output id = some (r.set stage s.cycle)) := by
  constructor
  · intro h
    unfold Core.updateOutput
    rw [h]
    exact alookup_append_of_none _ _ _ h
  · intro r h
    unfold Core.updateOutput
    rw [h]
    simp only
    rw [alookup_amap, h]
    rfl

/-- Witness for `updateOutput_first_call`: on the concrete state
`witCore` (empty record) a first call with stage argument 3 fills the
Issue slot with the current cycle 0; adding a row for ID 5 and calling
again with stage 3 fills the writeback slot. -/
theorem updateOutput_first_call_witness :
    (alookup witCore.output 5 = none →
      alookup (witCore.updateOutput 5 3).output 5 =
        some ⟨some witCore.cycle, none, none, none, none⟩) ∧
    (∀ r, alookup witCore.output 5 = some r →
      alookup (witCore.updateOutput 5 3).output 5 = some (r.set 3 witCore.cycle)) :=
  updateOutput_first_call witCore 5 3

/-- **C6.** The `done` flag is set by the end-of-cycle update exactly
when the instruction queue is empty at the current fetch offset and
every completion-record row has a commit cycle; and while `done` is
unset, the per-cycle loop takes another step. -/
theorem done_iff_drained (s : Core) (hd : s.done = false) :
    ((s.updateExitConditions).done = true ↔
      (s.iq.empty s.fetchOffset = true ∧
        ∀ p ∈ s.output, (OutRec.get p.2 4).isSome = true)) ∧
    (∀ n, Core.run (n + 1) s = Core.run n s.cycleStep) := by
  constructor
  · by_cases hc : (s.iq.empty s.fetchOffset &&
        s.output.countP (fun p => (p.2.get 4).isNone) == 0) = true
    · have hdone : (s.updateExitConditions).done = true := by
        simp only [Core.updateExitConditions]
        rw [if_pos hc]
      rw [hdone]
      simp only [true_iff]
      rw [Bool.and_eq_true, beq_iff_eq] at hc
      refine ⟨hc.1, fun p hp => ?_⟩
      have h4 := (List.countP_eq_zero).1 hc.2 p hp
      cases hget : OutRec.get p.2 4 with
      | some v => rfl
      | none => exact absurd (by rw [hget]; rfl) h4
    · have hdone : (s.updateExitConditions).done = s.done := by
        simp only [Core.updateExitConditions]
        rw [if_neg (by simp [hc])]
      rw [hdone, hd]
      constructor
      · intro h; exact absurd h Bool.false_ne_true
      · rintro ⟨h1, h2⟩
        exfalso
        apply (by simp [hc] : ¬ ((s.iq.empty s.fetchOffset &&
          s.output.countP (fun p => (p.2.get 4).isNone) == 0) = true))
        have hcount : s.output.countP (fun p => (p.2.get 4).isNone) = 0 := by
          rw [List.countP_eq_zero]
          intro p hp hn
          have h3 := h2 p hp
          cases hget : OutRec.get p.2 4 with
          | some v => rw [hget] at hn; exact absurd hn (by simp)
          | none => rw [hget] at h3; exact absurd h3 (by simp)
        rw [h1, hcount]
        rfl
  · intro n
    simp [Core.run, hd]

/-- Witness for `done_iff_drained`: the concrete state `witCore` has
`done = false`; its queue is non-empty, so the update leaves `done`
unset, matching the right-hand side. -/
theorem done_iff_drained_witness :
    ((witCore.updateExitConditions).done = true ↔
      (witCore.iq.empty witCore.fetchOffset = true ∧
        ∀ p ∈ witCore.output, (OutRec.get p.2 4).isSome = true)) ∧
    (∀ n, Core.run (n + 1) witCore = Core.run n witCore.cycleStep) :=
  done_iff_drained witCore rfl

/-- **C4** (evidence of the code bug).  On a fresh `MemoryUnit`:
`mem_read(-3)` silently returns word 0 instead of aborting (the byte
address −3 is outside the valid range); `mem_read(256)` dies with a bare
`IndexError`, not the `ValueError` diagnostic naming the address; and
`mem_write(256, 5)` passes the `addr > 256` bound check and also dies
with a bare `IndexError` on the flag array, although byte address 256 is
outside the 64-word (0..255) memory. -/
theorem memoryUnit_bounds_violated :
    MemoryUnit.init.mem_read (-3) = Except.ok (Cell.VInt 0) ∧
    MemoryUnit.init.mem_read 256 = Except.error MemErr.indexError ∧
    MemoryUnit.init.mem_write 256 (Cell.VInt 5) = Except.error MemErr.indexError ∧
    (∀ a : ℤ, MemErr.indexError ≠ MemErr.outrange a) := by
  refine ⟨rfl, rfl, rfl, fun a h => ?_⟩
  exact MemErr.noConfusion h

/-- The pointwise effect of the shipped `ReservationStation.update`:
each source slot whose tag matches is cleared and receives the value;
every other field is untouched. -/
theorem updateEntry_char (tag : ℕ) (v : Cell) (e : RSEntry6) :
    ReservationStation.updateEntry tag v e =
      ⟨e.id, e.op,
       if e.Qi = some tag then none else e.Qi,
       if e.Qj = some tag then none else e.Qj,
       if e.Qi = some tag then some v else e.Vi,
       if e.Qj = some tag then some v else e.Vj⟩ := by
  unfold ReservationStation.updateEntry
  by_cases h1 : e.Qi = some tag <;> by_cases h2 : e.Qj = some tag <;>
    simp [h1, h2]

/-- **C7.** `ReservationStation.update(tag, value)` maps each entry in
place (no entry added, removed or reordered); a source whose tag
equals `tag` gets tag `none` and value `value`, all other fields are
unchanged; and the "exactly one of {tag, value} per source" invariant
is preserved. -/
theorem rs_update_spec (rs : ReservationStation) (tag : ℕ) (v : Cell) :
    (∀ i, (rs.update tag v).q.get? i =
      (rs.q.get? i).map (ReservationStation.updateEntry tag v)) ∧
    (∀ e : RSEntry6,
      ReservationStation.updateEntry tag v e =
        ⟨e.id, e.op,
         if e.Qi = some tag then none else e.Qi,
         if e.Qj = some tag then none else e.Qj,
         if e.Qi = some tag then some v else e.Vi,
         if e.Qj = some tag then some v else e.Vj⟩) ∧
    ((∀ e ∈ rs.q, ReservationStation.entryOK e) →
      ∀ e ∈ (rs.update tag v).q, ReservationStation.entryOK e) := by
  refine ⟨fun i => ?_, updateEntry_char tag v, fun hOK e he => ?_⟩
  · show ((rs.q.map (ReservationStation.updateEntry tag v)).get? i) = _
    simp [List.get?_eq_getElem?, List.getElem?_map]
  · have he2 : e ∈ rs.q.map (ReservationStation.updateEntry tag v) := he
    rw [List.mem_map] at he2
    obtain ⟨a, ha, rfl⟩ := he2
    have hA := hOK a ha
    rw [updateEntry_char]
    constructor
    · by_cases h1 : a.Qi = some tag
      · simp only [h1, if_pos rfl]
        right
        exact ⟨rfl, rfl⟩
      · simp only [if_neg h1]
        exact hA.1
    · by_cases h2 : a.Qj = some tag
      · simp only [h2, if_pos rfl]
        right
        exact ⟨rfl, rfl⟩
      · simp only [if_neg h2]
        exact hA.2

/-- Witness for `rs_update_spec`: a two-entry station where the first
entry waits on tag 0; updating tag 0 with value 9 fills it and keeps
the invariant. -/
theorem rs_update_spec_witness :
    (∀ i, ((ReservationStation.mk 5
        [⟨0, Op.ADD, some 0, none, none, some (Cell.VInt 2)⟩]).update 0 (Cell.VInt 9)).q.get? i =
      (((ReservationStation.mk 5
        [⟨0, Op.ADD, some 0, none, none, some (Cell.VInt 2)⟩]).q.get? i).map
        (ReservationStation.updateEntry 0 (Cell.VInt 9)))) ∧
    (∀ e : RSEntry6,
      ReservationStation.updateEntry 0 (Cell.VInt 9) e =
        ⟨e.id, e.op,
         if e.Qi = some 0 then none else e.Qi,
         if e.Qj = some 0 then none else e.Qj,
         if e.Qi = some 0 then some (Cell.VInt 9) else e.Vi,
         if e.Qj = some 0 then some (Cell.VInt 9) else e.Vj⟩) ∧
    ((∀ e ∈ (ReservationStation.mk 5
        [⟨0, Op.ADD, some 0, none, none, some (Cell.VInt 2)⟩]).q, ReservationStation.entryOK e) →
      ∀ e ∈ ((ReservationStation.mk 5
        [⟨0, Op.ADD, some 0, none, none, some (Cell.VInt 2)⟩]).update 0 (Cell.VInt 9)).q,
        ReservationStation.entryOK e) :=
  rs_update_spec _ 0 (Cell.VInt 9)

/-- **C9.** The Memory stage performs at most one memory-port action
per cycle: it attempts store-to-load forwarding first, and issues a
ready load only when the forwarding attempt returned a negative ID;
forwarding and load issue never both happen in one cycle. -/
theorem memory_stage_single_action (s : Core) :
    ((s.memoryStageL).2.length ≤ 1) ∧
    ((s.lsq.doForwards).1 ≥ 0 →
      (s.memoryStageL).2 = [MemAct.forward (s.lsq.doForwards).1.toNat]) ∧
    (∀ id, MemAct.loadIssue id ∈ (s.memoryStageL).2 → ¬ ((s.lsq.doForwards).1 ≥ 0)) := by
  rcases hdf : s.lsq.doForwards with ⟨r, l1⟩
  by_cases hr : r ≥ 0
  · refine ⟨?_, ?_, ?_⟩
    · simp [Core.memoryStageL, hdf, hr]
    · intro _
      simp [Core.memoryStageL, hdf, hr]
    · intro id hmem
      simp [Core.memoryStageL, hdf, hr] at hmem
  · rcases hil : l1.issueReadyLoad with ⟨r2, l2⟩
    by_cases hr2 : r2 ≥ 0
    · refine ⟨?_, ?_, ?_⟩
      · simp [Core.memoryStageL, hdf, hr, hil, hr2]
      · intro hge
        exact absurd hge hr
      · intro id _
        exact hr
    · refine ⟨?_, ?_, ?_⟩
      · simp [Core.memoryStageL, hdf, hr, hil, hr2]
      · intro hge
        exact absurd hge hr
      · intro id hmem
        simp [Core.memoryStageL, hdf, hr, hil, hr2] at hmem

/-- Witness for `memory_stage_single_action` at the concrete state
`witCore` (whose forwarding attempt returns −1 on the empty queue). -/
theorem memory_stage_single_action_witness :
    ((witCore.memoryStageL).2.length ≤ 1) ∧
    ((witCore.lsq.doForwards).1 ≥ 0 →
      (witCore.memoryStageL).2 = [MemAct.forward (witCore.lsq.doForwards).1.toNat]) ∧
    (∀ id, MemAct.loadIssue id ∈ (witCore.memoryStageL).2 →
      ¬ ((witCore.lsq.doForwards).1 ≥ 0)) :=
  memory_stage_single_action witCore

theorem arf_broadcast (s : Core) (n : ℕ) (v : Cell) : (s.broadcast n v).arf = s.arf := rfl

theorem arf_ratClear (s : Core) (r : Option ROBEntry) : (s.ratClear r).arf = s.arf := by
  cases r with
  | none => rfl
  | some x =>
    show (if (RATm.get s.rat x.dest == some x.slot) = true
        then { s with rat := RATm.set s.rat x.dest none } else s).arf = s.arf
    split <;> rfl

theorem arf_updateOutput (s : Core) (id st : ℕ) : (s.updateOutput id st).arf = s.arf := by
  unfold Core.updateOutput
  cases alookup s.output id <;> rfl

/-- **C8.** Committing a store or a branch leaves the architectural
register file unchanged: the store path launches the memory write and
never calls `ARF.set`, and the non-store path writes the ARF only when
the committed ROB value is not a boolean branch outcome. -/
theorem commit_store_branch_preserves_arf (s : Core)
    (h : ∀ e, s.rob.headE = some e →
      (s.lsq.q.any (fun x => x.id == e.id && x.op == Op.SD) = true ∨
        e.value.isBool = true)) :
    (s.commitStage).arf = s.arf := by
  unfold Core.commitStage
  cases hq : s.rob.q with
  | nil =>
    have hcc : s.rob.canCommit = none := by
      unfold ROBmod.canCommit
      rw [hq]
      rfl
    rw [hcc]
  | cons e rest =>
    have hhead : s.rob.headE = some e := by
      unfold ROBmod.headE
      rw [hq]
      rfl
    by_cases hdone : e.done = true
    · have hcc : s.rob.canCommit = some e.id := by
        unfold ROBmod.canCommit
        rw [hq]
        show (if e.done = true then some e.id else none) = some e.id
        rw [if_pos hdone]
      rw [hcc]
      simp only
      by_cases hnew : s.isNew e.id = true
      · rw [if_pos hnew]
      · rw [if_neg hnew]
        by_cases hf : s.lsq.q.any (fun x => x.id == e.id && x.op == Op.SD) = true
        · -- the store path: no ARF access on any branch
          rw [if_pos hf]
          rcases hst : s.lsq.issueReadyStore with ⟨ss, lsq1⟩
          simp only [hst]
          by_cases hss : ss ≥ 0
          · rw [if_pos hss]
            have hhead2 : ({ s with lsq := lsq1 } : Core).rob.headE = some e := hhead
            rw [hhead2]
            simp only
            rw [arf_updateOutput, arf_ratClear]
            rfl
          · rw [if_neg hss]
        · -- a branch at the head: the boolean guard blocks ARF.set
          rcases h e hhead with hf2 | hb
          · exact absurd hf2 hf
          · rw [if_neg hf]
            rw [hhead]
            simp only
            have hcm : (s.broadcast e.id e.value).rob.commit =
                ({ s.rob with q := rest }, some e) := by
              show s.rob.commit = _
              unfold ROBmod.commit
              rw [hq]
            rw [hcm]
            simp only
            rw [arf_updateOutput]
            rw [show (!e.value.isBool) = false by rw [hb]; rfl]
            rw [if_neg (by simp : ¬ (false = true))]
            rw [arf_ratClear]
            rfl
    · have hcc : s.rob.canCommit = none := by
        unfold ROBmod.canCommit
        rw [hq]
        show (if e.done = true then some e.id else none) = none
        rw [if_neg hdone]
      rw [hcc]

/-- Every ID-carrying entry of every structure named by the claim
(reservation stations, functional units, LSQ with its result buffer and
memory port, ROB, completion record) is bounded by `B`. -/
def idsBelow (B : ℕ) (s : Core) : Prop :=
  (∀ e ∈ s.rsALUI.q, e.id ≤ B) ∧
  (∀ e ∈ s.rsALUFP.q, e.id ≤ B) ∧
  (∀ e ∈ s.rsMULTFP.q, e.id ≤ B) ∧
  (∀ fu ∈ s.aluis, (∀ p, fu.inflight = some p → p.1 ≤ B) ∧
    (∀ p, fu.result = some p → p.1 ≤ B)) ∧
  (∀ fu ∈ s.alufps, (∀ p, fu.inflight = some p → p.1 ≤ B) ∧
    (∀ p, fu.result = some p → p.1 ≤ B)) ∧
  (∀ fu ∈ s.multfps, (∀ p, fu.inflight = some p → p.1 ≤ B) ∧
    (∀ p, fu.result = some p → p.1 ≤ B)) ∧
  (∀ e ∈ s.lsq.q, e.id ≤ B) ∧
  (∀ r ∈ s.lsq.resultBuf, r.1 ≤ B) ∧
  (∀ p, s.lsq.port = some p → p.id ≤ B) ∧
  (∀ e ∈ s.rob.q, e.id ≤ B) ∧
  (∀ p ∈ s.output, p.1 ≤ B)

theorem fu_purge_below (fu : FU) (B : ℕ) :
    (∀ p, (fu.purgeAfterMispredict B).inflight = some p → p.1 ≤ B) ∧
    (∀ p, (fu.purgeAfterMispredict B).result = some p → p.1 ≤ B) := by
  constructor
  · intro p hp
    unfold FU.purgeAfterMispredict at hp
    simp only [Option.bind_eq_some] at hp
    obtain ⟨a, _, ha⟩ := hp
    by_cases hgt : a.1 > B
    · rw [if_pos hgt] at ha
      exact absurd ha (by simp)
    · rw [if_neg hgt] at ha
      cases ha
      omega
  · intro p hp
    unfold FU.purgeAfterMispredict at hp
    simp only [Option.bind_eq_some] at hp
    obtain ⟨a, _, ha⟩ := hp
    by_cases hgt : a.1 > B
    · rw [if_pos hgt] at ha
      exact absurd ha (by simp)
    · rw [if_neg hgt] at ha
      cases ha
      omega

/-- **C2.** After the misprediction-recovery block of the Branch-check
stage runs for branch `B`, no structure (reservation stations,
functional units, LSQ, ROB, completion record) contains any entry with
instruction ID strictly greater than `B`; and the reservation stations'
`purgeAfterMispredict(branchID)` keeps exactly the entries with
instruction ID ≤ branchID. -/
theorem mispredict_purges_younger (s : Core) (B : ℕ) (pred : Bool) :
    idsBelow B (s.mispredictRecover B pred) ∧
    (∀ (rs : RSQ) (e : RSEntry),
      e ∈ (rs.purgeAfterMispredict B).q ↔ (e ∈ rs.q ∧ e.id ≤ B)) ∧
    (∀ (s2 : Core) (v : Cell), idsBelow B s2 →
      idsBelow B { s2 with rob := (s2.rob.findAndUpdateEntry B v).1
                           rsALUI := s2.rsALUI.remove B }) := by
  have hrs : ∀ (rs : RSQ) (e : RSEntry),
      e ∈ (rs.purgeAfterMispredict B).q ↔ (e ∈ rs.q ∧ e.id ≤ B) := by
    intro rs e
    unfold RSQ.purgeAfterMispredict
    simp [List.mem_filter]
  have hpost : ∀ (s2 : Core) (v : Cell), idsBelow B s2 →
      idsBelow B { s2 with rob := (s2.rob.findAndUpdateEntry B v).1
                           rsALUI := s2.rsALUI.remove B } := by
    intro s2 v hs2
    obtain ⟨h1, h2, h3, h4, h5, h6, h7, h8, h9, h10, h11⟩ := hs2
    refine ⟨?_, h2, h3, h4, h5, h6, h7, h8, h9, ?_, h11⟩
    · intro e he
      unfold RSQ.remove at he
      exact h1 e (List.mem_of_mem_eraseP he)
    · intro e he
      unfold ROBmod.findAndUpdateEntry at he
      simp only [List.mem_map] at he
      obtain ⟨a, ha, rfl⟩ := he
      by_cases hid : (a.id == B) = true
      · rw [if_pos hid]
        exact h10 a ha
      · rw [if_neg hid]
        exact h10 a ha
  refine ⟨?_, hrs, hpost⟩
  unfold Core.mispredictRecover
  refine ⟨?_, ?_, ?_, ?_, ?_, ?_, ?_, ?_, ?_, ?_, ?_⟩
  · intro e he
    exact ((hrs s.rsALUI e).1 he).2
  · intro e he
    exact ((hrs s.rsALUFP e).1 he).2
  · intro e he
    exact ((hrs s.rsMULTFP e).1 he).2
  · intro fu hfu
    simp only [List.mem_map] at hfu
    obtain ⟨a, _, rfl⟩ := hfu
    exact fu_purge_below a B
  · intro fu hfu
    simp only [List.mem_map] at hfu
    obtain ⟨a, _, rfl⟩ := hfu
    exact fu_purge_below a B
  · intro fu hfu
    simp only [List.mem_map] at hfu
    obtain ⟨a, _, rfl⟩ := hfu
    exact fu_purge_below a B
  · intro e he
    unfold LSQ.purgeAfterMispredict at he
    simp only [List.mem_filter, decide_eq_true_eq] at he
    exact he.2
  · intro r hr
    unfold LSQ.purgeAfterMispredict at hr
    simp only [List.mem_filter, decide_eq_true_eq] at hr
    exact hr.2
  · intro p hp
    unfold LSQ.purgeAfterMispredict at hp
    simp only [Option.bind_eq_some] at hp
    obtain ⟨a, _, ha⟩ := hp
    by_cases hgt : a.id > B
    · rw [if_pos hgt] at ha
      exact absurd ha (by simp)
    · rw [if_neg hgt] at ha
      cases ha
      omega
  · intro e he
    unfold ROBmod.purgeAfterMispredict at he
    simp only [List.mem_filter, decide_eq_true_eq] at he
    exact he.2
  · intro p hp
    simp only [List.mem_filter] at hp
    have := hp.2
    simp only [Bool.not_eq_true', decide_eq_false_iff_not] at this
    omega

/-- Witness for `mispredict_purges_younger` at the concrete state
`witCore` and branch ID 0. -/
theorem mispredict_purges_younger_witness :
    idsBelow 0 (witCore.mispredictRecover 0 false) ∧
    (∀ (rs : RSQ) (e : RSEntry),
      e ∈ (rs.purgeAfterMispredict 0).q ↔ (e ∈ rs.q ∧ e.id ≤ 0)) ∧
    (∀ (s2 : Core) (v : Cell), idsBelow 0 s2 →
      idsBelow 0 { s2 with rob := (s2.rob.findAndUpdateEntry 0 v).1
                           rsALUI := s2.rsALUI.remove 0 }) :=
  mispredict_purges_younger witCore 0 false

/-- The head entry used by the C3 counterexample: instruction 7,
completed, value 1, in ROB slot 0. -/
def c3robHead : ROBEntry := ⟨7, .reg (.R 2), Cell.VInt 1, true, 0⟩

/-- A one-entry ROB whose completed head holds value 1 in slot 0. -/
def c3rob : ROBmod := { size := 4, q := [c3robHead], nextSlot := 1 }

/-- **C3, counterexample.**  Issuing an `LD` whose captured base-address
tag `ROB0` matches the completed ROB head (stored value 1): the
back-filled base-address field becomes `4 * int(1) = 4`, not the value
1 stored in the ROB head — refuting "the captured value becomes exactly
the value stored in the ROB head entry … the base-address field of an
LD/SD alike". -/
theorem memBackfill_not_exact :
    memBackfill Op.LD c3rob (TV.tag 3) (TV.tag 0) = (TV.tag 3, TV.val (Cell.VInt 4)) ∧
    c3rob.headE = some c3robHead ∧
    c3robHead.done = true ∧
    c3robHead.value = Cell.VInt 1 ∧
    TV.val (Cell.VInt 4) ≠ TV.val (Cell.VInt 1) := by
  refine ⟨rfl, rfl, rfl, rfl, ?_⟩
  decide

/-- **C3, amended.**  During Issue, if the ROB head entry is done and
its tag `ROB<head>` equals a captured tag, the captured tag is cleared
and the captured value becomes: the ROB head's stored value verbatim
for arithmetic and branch sources; `float(value)` for the store-data
field of an `SD`; and `4 * int(value)` — not the value itself — for the
base-address field of an `LD`/`SD`. -/
theorem issue_backfill_semantics (rob : ROBmod) (h : ROBEntry)
    (hh : rob.headE = some h) (hd : h.done = true) :
    (∀ (q1 q2 : Option ℕ) (v1 v2 : Option Cell),
      arithBackfill rob q1 q2 v1 v2 =
        (if q1 = some h.slot then none else q1,
         if q2 = some h.slot then none else q2,
         if q1 = some h.slot then some h.value else v1,
         if q2 = some h.slot then some h.value else v2)) ∧
    (∀ a : TV, memBackfill Op.SD rob (TV.tag h.slot) a =
      (TV.val h.value.pyFloat,
       if a = TV.tag h.slot then TV.val (Cell.VInt (4 * h.value.pyInt)) else a)) ∧
    (∀ (name : Op) (d : TV), memBackfill name rob d (TV.tag h.slot) =
      (if name = Op.SD ∧ d = TV.tag h.slot then TV.val h.value.pyFloat else d,
       TV.val (Cell.VInt (4 * h.value.pyInt)))) := by
  refine ⟨?_, ?_, ?_⟩
  · intro q1 q2 v1 v2
    unfold arithBackfill
    rw [hh]
    simp only [hd, if_pos rfl]
    by_cases h1 : q1 = some h.slot <;> by_cases h2 : q2 = some h.slot <;>
      simp [h1, h2]
  · intro a
    unfold memBackfill
    rw [hh]
    simp only [hd, if_pos rfl]
    by_cases h2 : a = TV.tag h.slot <;> simp [h2]
  · intro name d
    unfold memBackfill
    rw [hh]
    simp only [hd, if_pos rfl]
    by_cases h1 : name = Op.SD <;> by_cases h2 : d = TV.tag h.slot <;>
      simp [h1, h2]

/-- Witness for `issue_backfill_semantics` at the concrete ROB `c3rob`:
an arithmetic source waiting on `ROB0` receives value 1 verbatim, while
the base-address field of a memory instruction receives `4`. -/
theorem issue_backfill_semantics_witness :
    c3rob.headE = some c3robHead ∧ c3robHead.done = true ∧
    arithBackfill c3rob (some 0) none none (some (Cell.VInt 9)) =
      (none, none, some (Cell.VInt 1), some (Cell.VInt 9)) ∧
    memBackfill Op.LD c3rob (TV.tag 3) (TV.tag 0) = (TV.tag 3, TV.val (Cell.VInt 4)) := by
  refine ⟨rfl, rfl, ?_, ?_⟩
  · rw [(issue_backfill_semantics c3rob c3robHead rfl rfl).1 (some 0) none none
      (some (Cell.VInt 9))]
    decide
  · have h2 := (issue_backfill_semantics c3rob c3robHead rfl rfl).2.2 Op.LD (TV.tag 3)
    exact h2.trans (by decide)

/-- **C5** (evidence of the code bug).  Running the embedded simulator
on the concrete program `SD F0, 0(R1); LD F2, 0(R1)` with `R1 = 4`,
`F0 = 3.0` (the state `witCore`): the load (instruction 1) is forwarded
from the store and commits, and its completion record is
`[issue 1, execute 2, memory 2, writeback 2, commit 3]` — Execute,
Memory and Writeback all share cycle 2, because the Memory and
Writeback stages consult no `isNew` gate.  The simulation terminates
(`done` set) with both instructions committed. -/
theorem completion_record_shares_cycles :
    alookup (Core.run 6 witCore).output 1 =
      some ⟨some 1, some 2, some 2, some 2, some 3⟩ ∧
    alookup (Core.run 6 witCore).output 0 =
      some ⟨some 0, some 1, none, none, some 2⟩ ∧
    (Core.run 6 witCore).done = true := by
  refine ⟨?_, ?_, ?_⟩ <;> rfl

/-- Full characterisation of one writeback scan loop, for any starting
accumulator: either no unit beats the running bound and the accumulator
comes back unchanged, or the scan returns the first unit attaining the
minimum ready result ID below the bound. -/
theorem wbScan_spec (cls : ℕ → WinRef) (fus : List FU) (i : ℕ)
    (w : Option WinRef) (old : ℕ) :
    (wbScan cls fus i (w, old) = (w, old) ∧
      ∀ fu ∈ fus, fu.isResultReady = true → old ≤ fu.getResultID) ∨
    (∃ j fu, fus.get? j = some fu ∧ fu.isResultReady = true ∧
      wbScan cls fus i (w, old) = (some (cls (i + j)), fu.getResultID) ∧
      fu.getResultID < old ∧
      ∀ fu2 ∈ fus, fu2.isResultReady = true →
        fu.getResultID ≤ fu2.getResultID) := by
  induction fus generalizing i w old with
  | nil =>
    left
    exact ⟨rfl, by simp⟩
  | cons fu rest ih =>
    rw [wbScan]
    by_cases hc : (fu.isResultReady && decide (fu.getResultID < old)) = true
    · rw [if_pos hc]
      rw [Bool.and_eq_true, decide_eq_true_eq] at hc
      obtain ⟨hr, hlt⟩ := hc
      rcases ih (i + 1) (some (cls i)) fu.getResultID with
        ⟨heq, hall⟩ | ⟨j, fu3, hget, hr3, heq, hlt3, hmin⟩
      · right
        refine ⟨0, fu, rfl, hr, ?_, hlt, ?_⟩
        · rw [heq, Nat.add_zero]
        · intro fu2 hm hr2
          rcases List.mem_cons.1 hm with rfl | hm2
          · exact le_refl _
          · exact hall fu2 hm2 hr2
      · right
        refine ⟨j + 1, fu3, hget, hr3, ?_, lt_trans hlt3 hlt, ?_⟩
        · have hadd : i + 1 + j = i + (j + 1) := by omega
          rw [hadd] at heq
          exact heq
        · intro fu2 hm hr2
          rcases List.mem_cons.1 hm with rfl | hm2
          · exact le_of_lt hlt3
          · exact hmin fu2 hm2 hr2
    · rw [if_neg hc]
      have hnp : fu.isResultReady = true → ¬ (fu.getResultID < old) := by
        intro hr hlt
        apply hc
        rw [Bool.and_eq_true, decide_eq_true_eq]
        exact ⟨hr, hlt⟩
      rcases ih (i + 1) w old with
        ⟨heq, hall⟩ | ⟨j, fu3, hget, hr3, heq, hlt3, hmin⟩
      · left
        refine ⟨heq, ?_⟩
        intro fu2 hm hr2
        rcases List.mem_cons.1 hm with rfl | hm2
        · exact Nat.le_of_not_lt (hnp hr2)
        · exact hall fu2 hm2 hr2
      · right
        refine ⟨j + 1, fu3, hget, hr3, ?_, hlt3, ?_⟩
        · have hadd : i + 1 + j = i + (j + 1) := by omega
          rw [hadd] at heq
          exact heq
        · intro fu2 hm hr2
          rcases List.mem_cons.1 hm with rfl | hm2
          · exact le_of_lt (lt_of_lt_of_le hlt3 (Nat.le_of_not_lt (hnp hr2)))
          · exact hmin fu2 hm2 hr2

/-- An integer ALU holding ready result for instruction 7. -/
def fuReady7 : FU := ⟨1, none, some (7, Cell.VInt 11)⟩

/-- An FP adder holding ready result for the older instruction 3. -/
def fuReady3 : FU := ⟨1, none, some (3, Cell.VFloat 5)⟩

/-- An idle load/store queue. -/
def emptyLSQ : LSQ := ⟨4, 1, [], none, [], []⟩

/-- **C1, counterexample.**  With integer ALU 0 holding ready result ID
7 and FP adder 0 holding ready result ID 3, the Writeback stage elects
the integer ALU (instruction 7) although instruction 3 — a strictly
smaller ID — is ready on the FP adder: the election is not "the
smallest instruction ID among all units holding a ready result". -/
theorem writeback_not_global_min :
    writebackSelect [fuReady7] [fuReady3] [] emptyLSQ = some (WinRef.alui 0) ∧
    fuReady7.isResultReady = true ∧ fuReady7.getResultID = 7 ∧
    fuReady3.isResultReady = true ∧ fuReady3.getResultID = 3 ∧ 3 < 7 := by
  exact ⟨rfl, rfl, rfl, rfl, rfl, by omega⟩

/-- **C1, amended.**  The Writeback stage elects at most one result per
cycle (the election returns at most one unit); the elected result comes
from the first unit class, in the order integer ALU → FP adder → FP
multiplier → load port, that holds any ready result, and within that
class it carries the smallest ready instruction ID (instruction IDs are
assumed below the scan bound `2^30`); the load port is elected only
when no functional unit holds a ready result. -/
theorem writeback_elects_class_then_age
    (aluis alufps multfps : List FU) (lsq : LSQ)
    (hbound : ∀ fu, (fu ∈ aluis ∨ fu ∈ alufps ∨ fu ∈ multfps) →
      fu.isResultReady = true → fu.getResultID < 2 ^ 30) :
    ((∃ fu ∈ aluis, fu.isResultReady = true) →
      ∃ j fu, aluis.get? j = some fu ∧ fu.isResultReady = true ∧
        writebackSelect aluis alufps multfps lsq = some (WinRef.alui j) ∧
        ∀ fu2 ∈ aluis, fu2.isResultReady = true →
          fu.getResultID ≤ fu2.getResultID) ∧
    ((∀ fu ∈ aluis, fu.isResultReady = false) →
      (∃ fu ∈ alufps, fu.isResultReady = true) →
      ∃ j fu, alufps.get? j = some fu ∧ fu.isResultReady = true ∧
        writebackSelect aluis alufps multfps lsq = some (WinRef.alufp j) ∧
        ∀ fu2 ∈ alufps, fu2.isResultReady = true →
          fu.getResultID ≤ fu2.getResultID) ∧
    ((∀ fu ∈ aluis, fu.isResultReady = false) →
      (∀ fu ∈ alufps, fu.isResultReady = false) →
      (∃ fu ∈ multfps, fu.isResultReady = true) →
      ∃ j fu, multfps.get? j = some fu ∧ fu.isResultReady = true ∧
        writebackSelect aluis alufps multfps lsq = some (WinRef.multfp j) ∧
        ∀ fu2 ∈ multfps, fu2.isResultReady = true →
          fu.getResultID ≤ fu2.getResultID) ∧
    ((∀ fu ∈ aluis, fu.isResultReady = false) →
      (∀ fu ∈ alufps, fu.isResultReady = false) →
      (∀ fu ∈ multfps, fu.isResultReady = false) →
      writebackSelect aluis alufps multfps lsq =
        (if lsq.isResultReady then some WinRef.ldstq else none)) := by
  have scanNone : ∀ (cls : ℕ → WinRef) (fus : List FU),
      (∀ fu ∈ fus, fu.isResultReady = false) →
      wbScan cls fus 0 (none, 2 ^ 30) = (none, 2 ^ 30) := by
    intro cls fus hnone
    rcases wbScan_spec cls fus 0 none (2 ^ 30) with ⟨heq, _⟩ | ⟨j, fu, hget, hr, _, _, _⟩
    · exact heq
    · exfalso
      have hmem : fu ∈ fus := List.get?_mem hget
      rw [hnone fu hmem] at hr
      exact absurd hr (by simp)
  have scanWins : ∀ (cls : ℕ → WinRef) (fus : List FU),
      (∀ fu ∈ fus, fu.isResultReady = true → fu.getResultID < 2 ^ 30) →
      (∃ fu ∈ fus, fu.isResultReady = true) →
      ∃ j fu, fus.get? j = some fu ∧ fu.isResultReady = true ∧
        wbScan cls fus 0 (none, 2 ^ 30) = (some (cls j), fu.getResultID) ∧
        ∀ fu2 ∈ fus, fu2.isResultReady = true →
          fu.getResultID ≤ fu2.getResultID := by
    intro cls fus hb ⟨fu0, hfu0, hr0⟩
    rcases wbScan_spec cls fus 0 none (2 ^ 30) with
      ⟨_, hall⟩ | ⟨j, fu, hget, hr, heq, _, hmin⟩
    · exfalso
      have h1 := hall fu0 hfu0 hr0
      have h2 := hb fu0 hfu0 hr0
      omega
    · rw [Nat.zero_add] at heq
      exact ⟨j, fu, hget, hr, heq, hmin⟩
  refine ⟨?_, ?_, ?_, ?_⟩
  · intro hex
    obtain ⟨j, fu, hget, hr, heq, hmin⟩ :=
      scanWins WinRef.alui aluis (fun fu hm => hbound fu (Or.inl hm)) hex
    refine ⟨j, fu, hget, hr, ?_, hmin⟩
    unfold writebackSelect
    rw [heq]
    rfl
  · intro hnone hex
    have h1 := scanNone WinRef.alui aluis hnone
    obtain ⟨j, fu, hget, hr, heq, hmin⟩ :=
      scanWins WinRef.alufp alufps (fun fu hm => hbound fu (Or.inr (Or.inl hm))) hex
    refine ⟨j, fu, hget, hr, ?_, hmin⟩
    unfold writebackSelect
    rw [h1]
    simp only [Option.isNone_none, if_pos]
    rw [heq]
    rfl
  · intro hnone1 hnone2 hex
    have h1 := scanNone WinRef.alui aluis hnone1
    have h2 := scanNone WinRef.alufp alufps hnone2
    obtain ⟨j, fu, hget, hr, heq, hmin⟩ :=
      scanWins WinRef.multfp multfps (fun fu hm => hbound fu (Or.inr (Or.inr hm))) hex
    refine ⟨j, fu, hget, hr, ?_, hmin⟩
    unfold writebackSelect
    rw [h1]
    simp only [Option.isNone_none, if_pos]
    rw [h2]
    simp only [Option.isNone_none, if_pos]
    rw [heq]
  · intro hnone1 hnone2 hnone3
    have h1 := scanNone WinRef.alui aluis hnone1
    have h2 := scanNone WinRef.alufp alufps hnone2
    have h3 := scanNone WinRef.multfp multfps hnone3
    unfold writebackSelect
    rw [h1]
    simp only [Option.isNone_none, if_pos]
    rw [h2]
    simp only [Option.isNone_none, if_pos]
    rw [h3]

/-- Witness for `writeback_elects_class_then_age` at the concrete state
of the counterexample: the integer-ALU class is non-empty-ready, so the
election picks its smallest-ID unit (instruction 7). -/
theorem writeback_elects_class_then_age_witness :
    ((∃ fu ∈ [fuReady7], fu.isResultReady = true) →
      ∃ j fu, [fuReady7].get? j = some fu ∧ fu.isResultReady = true ∧
        writebackSelect [fuReady7] [fuReady3] [] emptyLSQ = some (WinRef.alui j) ∧
        ∀ fu2 ∈ [fuReady7], fu2.isResultReady = true →
          fu.getResultID ≤ fu2.getResultID) ∧
    ((∀ fu ∈ [fuReady7], fu.isResultReady = false) →
      (∃ fu ∈ [fuReady3], fu.isResultReady = true) →
      ∃ j fu, [fuReady3].get? j = some fu ∧ fu.isResultReady = true ∧
        writebackSelect [fuReady7] [fuReady3] [] emptyLSQ = some (WinRef.alufp j) ∧
        ∀ fu2 ∈ [fuReady3], fu2.isResultReady = true →
          fu.getResultID ≤ fu2.getResultID) ∧
    ((∀ fu ∈ [fuReady7], fu.isResultReady = false) →
      (∀ fu ∈ [fuReady3], fu.isResultReady = false) →
      (∃ fu ∈ ([] : List FU), fu.isResultReady = true) →
      ∃ j fu, ([] : List FU).get? j = some fu ∧ fu.isResultReady = true ∧
        writebackSelect [fuReady7] [fuReady3] [] emptyLSQ = some (WinRef.multfp j) ∧
        ∀ fu2 ∈ ([] : List FU), fu2.isResultReady = true →
          fu.getResultID ≤ fu2.getResultID) ∧
    ((∀ fu ∈ [fuReady7], fu.isResultReady = false) →
      (∀ fu ∈ [fuReady3], fu.isResultReady = false) →
      (∀ fu ∈ ([] : List FU), fu.isResultReady = false) →
      writebackSelect [fuReady7] [fuReady3] [] emptyLSQ =
        (if emptyLSQ.isResultReady then some WinRef.ldstq else none)) :=
  writeback_elects_class_then_age [fuReady7] [fuReady3] [] emptyLSQ (by
    intro fu hm hr
    rcases hm with hm | hm | hm
    · rw [List.mem_singleton] at hm
      subst hm
      decide
    · rw [List.mem_singleton] at hm
      subst hm
      decide
    · simp at hm)

/-- Witness for `commit_store_branch_preserves_arf`: a state whose ROB
head is a completed store also present in the LSQ — committing it
leaves the ARF untouched. -/
theorem commit_store_branch_preserves_arf_witness :
    ({ witCore with
        rob := { size := 8, q := [⟨0, .reg (.F 0), Cell.VInt 0, true, 0⟩], nextSlot := 1 }
        lsq := { witCore.lsq with
          q := [⟨0, Op.SD, TV.val (Cell.VFloat 3), TV.val (Cell.VInt 16), 0, true, false, false⟩] }
      } : Core).commitStage.arf =
    ({ witCore with
        rob := { size := 8, q := [⟨0, .reg (.F 0), Cell.VInt 0, true, 0⟩], nextSlot := 1 }
        lsq := { witCore.lsq with
          q := [⟨0, Op.SD, TV.val (Cell.VFloat 3), TV.val (Cell.VInt 16), 0, true, false, false⟩] }
      } : Core).arf :=
  commit_store_branch_preserves_arf _ (by
    intro e he
    left
    cases Option.some.injEq _ _ ▸ he
    rfl)
